import Mathlib

/-!
Verification of the resilient JSON decoding and pagination extraction layer of
the go-shopify client library.

The development shallowly embeds the relevant Go routines:

* the properties branch of LineItem.UnmarshalJSON (src/order.go, lines 192-227),
* the flexible timestamp function parse and the custom unmarshaller of
  RecurringApplicationCharge (src/unnamed/part_000, lines 71-114),
* extractPagination, whose body is not among the provided source files and is
  therefore modelled from the specification (spec.md, section 4.2).

JSON documents are represented as trees.  Where the Go code stores a decoded
generic value in an interface, the model keeps the JSON tree itself: Go
materialises objects as maps, arrays as slices and numbers as float64, but none
of the properties verified here depend on that materialisation, only on which
tree was decoded.  Go nil slices and empty slices are both rendered as the
empty list.
-/

/-- A JSON value.  Numbers are kept as exact rationals; the Go decoder stores
them as float64, which none of the verified claims inspect. -/
inductive Json where
  | null : Json
  | bool (b : Bool) : Json
  | num (q : Rat) : Json
  | str (s : String) : Json
  | arr (elems : List Json) : Json
  | obj (fields : List (String × Json)) : Json

/-- The NoteAttribute struct of src/order.go (lines 233-236): a name and an
interface value.  A Go nil interface (the decoding of JSON null, or an absent
field) is represented by none. -/
structure NoteAttribute where
  name : String
  value : Option Json

/-- Decoding a JSON value into a Go interface value: null becomes the nil
interface, every other value is kept (Go materialises it as
map, slice, float64, string or bool; the model keeps the tree). -/
def goDecodeAny : Json → Option Json
  | .null => none
  | v => some v

/-- Key matching of encoding/json: an exact tag match is preferred, otherwise
the match is case-insensitive.  For the tags used here (name, value, and the
tags of RecurringApplicationCharge) Go folds byte-wise over ASCII, which is
String.toLower. -/
def foldKey (k : String) : String := ⟨k.data.map Char.toLower⟩

/-- One field of a JSON object applied to a NoteAttribute being decoded,
mirroring encoding/json: the key name selects the struct field by folded
comparison, a JSON null stored into a string field is a no-op, a JSON null
stored into an interface field yields the nil interface, unknown keys are
ignored, and a non-string value for the name field is a type error. -/
def applyNoteField (a : NoteAttribute) (k : String) (v : Json) : Except String NoteAttribute :=
  if foldKey k = ("name") then
    match v with
    | .str s => .ok ({a with name := s})
    | .null => .ok a
    | _ => .error ("json: cannot unmarshal value into Go struct field NoteAttribute.name of type string")
  else if foldKey k = ("value") then
    .ok ({a with value := goDecodeAny v})
  else
    .ok a

/-- json.Unmarshal of one value into a NoteAttribute struct: null is a no-op
on the zero value, an object is decoded field by field in order (so a repeated
key keeps the last value, as in Go), and any other shape is a type error.
encoding/json records the first type error and returns it after scanning, so
success and the reported error agree with aborting at the first error. -/
def decodeNoteAttribute : Json → Except String NoteAttribute
  | .null => .ok ⟨"", none⟩
  | .obj fields => fields.foldlM (fun a kv => applyNoteField a kv.1 kv.2) ⟨"", none⟩
  | _ => .error ("json: cannot unmarshal value into Go value of type goshopify.NoteAttribute")

/-- json.Unmarshal of a list of array elements into a slice of NoteAttribute,
element by element, surfacing the first element error. -/
def decodeNoteAttributes : List Json → Except String (List NoteAttribute)
  | [] => .ok []
  | x :: xs =>
    match decodeNoteAttribute x with
    | .error e => .error e
    | .ok a =>
      match decodeNoteAttributes xs with
      | .error e => .error e
      | .ok as => .ok (a :: as)

/-- json.Unmarshal of one value into a slice of NoteAttribute: null leaves the
nil slice, an array decodes element-wise, anything else is a type error. -/
def decodeNoteAttributeList : Json → Except String (List NoteAttribute)
  | .null => .ok []
  | .arr xs => decodeNoteAttributes xs
  | _ => .error ("json: cannot unmarshal value into Go value of type slice of goshopify.NoteAttribute")

/-- The test aux.Properties[0] == the byte left-bracket of src/order.go line 206.  The raw
message holds the JSON text of the field starting at its first structural
byte, and for well-formed JSON (already validated by the outer decoder) that
byte is a left bracket exactly when the value is an array. -/
def firstByteIsArray : Json → Bool
  | .arr _ => true
  | _ => false

/-- The properties handling of LineItem.UnmarshalJSON (src/order.go lines
204-227).  The input is the raw properties field captured by the auxiliary
struct: none when the field is absent (len(aux.Properties) == 0), otherwise
the JSON value of the field.  The result is the final li.Properties sequence
(a Go nil slice and an empty slice both denote the empty sequence). -/
def LineItem.unmarshalProperties (raw : Option Json) : Except String (List NoteAttribute) :=
  match raw with
  | none => .ok []
  | some v =>
    if firstByteIsArray v then
      decodeNoteAttributeList v
    else
      match decodeNoteAttribute v with
      | .error e => .error e
      | .ok p =>
        if p.name = ("") ∧ p.value.isNone then .ok []
        else .ok [p]

/-- A JSON object with a name field and an optional value field, the wire shape
of one property pair. -/
def mkPropertyPair (n : String) (v : Option Json) : Json :=
  .obj (("name", Json.str n) :: (match v with | some w => [("value", w)] | none => []))

/-- Numeric value of an ASCII digit, as Go isDigit plus the subtraction of the
zero byte. -/
def digitVal (c : Char) : Option Nat :=
  if '0' ≤ c ∧ c ≤ '9' then some (c.toNat - 48) else none

/-- Two-digit field read by the Go time parser (parseUint on a width-2 slice). -/
def num2 (c1 c2 : Char) : Option Nat := do
  let d1 ← digitVal c1
  let d2 ← digitVal c2
  some (10 * d1 + d2)

/-- Four-digit year field read by the Go time parser. -/
def num4 (c1 c2 c3 c4 : Char) : Option Nat := do
  let d1 ← digitVal c1
  let d2 ← digitVal c2
  let d3 ← digitVal c3
  let d4 ← digitVal c4
  some (1000 * d1 + 100 * d2 + 10 * d3 + d4)

/-- Leap year rule of package time. -/
def isLeap (y : Nat) : Bool := y % 4 == 0 && (y % 100 != 0 || y % 400 == 0)

/-- Number of days in a month, as time.daysIn (the daysBefore table with the
February special case). -/
def daysIn (m y : Nat) : Nat :=
  if m = 2 then (if isLeap y then 29 else 28)
  else if m = 4 ∨ m = 6 ∨ m = 9 ∨ m = 11 then 30
  else 31

/-- The result of a successful Go time.Parse for the layouts used here: the
broken-down instant together with the zone offset east of UTC in seconds.  The
parser range-checks every component before constructing the time, so no
normalisation occurs and the fields are kept directly. -/
structure GoTime where
  year : Nat
  month : Nat
  day : Nat
  hour : Nat
  minute : Nat
  second : Nat
  nanosecond : Nat
  offsetSeconds : Int
deriving DecidableEq, Repr

/-- Splits a leading run of ASCII digits from the rest, as the fraction scan of
Go parseRFC3339. -/
def takeDigits : List Char → List Char × List Char
  | [] => ([], [])
  | c :: cs =>
    if c.isDigit then
      let p := takeDigits cs
      (c :: p.1, p.2)
    else ([], c :: cs)

/-- Nanoseconds denoted by a fraction digit run, as time.parseNanoseconds: at
most nine digits are kept (a longer run is truncated) and the value is scaled
to nine decimal places. -/
def nanosOfDigits (ds : List Char) : Nat :=
  let ds9 := ds.take 9
  (ds9.foldl (fun a c => 10 * a + (c.toNat - 48)) 0) * 10 ^ (9 - ds9.length)

/-- The optional fractional-second scan of Go parseRFC3339: consumed only when
a dot followed by a digit is present, returning the nanoseconds and the rest
of the input. -/
def parseFrac : List Char → Nat × List Char
  | c :: c2 :: cs =>
    if c = '.' ∧ c2.isDigit then
      let p := takeDigits (c2 :: cs)
      (nanosOfDigits p.1, p.2)
    else (0, c :: c2 :: cs)
  | s => (0, s)

/-- The zone suffix of Go parseRFC3339: either the single letter Z (offset
zero) or a sign, a two-digit hour at most 23, a colon and a two-digit minute
at most 59, giving the offset in seconds with the sign applied. -/
def parseZone : List Char → Option Int
  | [z] => if z = 'Z' then some 0 else none
  | [c, h1, h2, sep, m1, m2] => do
    let hh ← num2 h1 h2
    let mm ← num2 m1 m2
    if (c = '+' ∨ c = '-') ∧ sep = ':' ∧ hh ≤ 23 ∧ mm ≤ 59 then
      let off : Int := (hh * 60 + mm) * 60
      some (if c = '-' then -off else off)
    else none
  | _ => none

/-- The dedicated strict routine parseRFC3339 that Go time.Parse tries first
for the RFC 3339 layout: a four-digit year, dash, two-digit month in 1..12,
dash, two-digit day in 1..daysIn, the letter T, two-digit hour at most 23,
colon, two-digit minute at most 59, colon, two-digit second at most 59, an
optional fraction and the zone suffix.  When this routine rejects the input,
time.Parse falls back to the general layout-driven parser, embedded below. -/
def parseRFC3339 : List Char → Option GoTime
  | y1 :: y2 :: y3 :: y4 :: s1 :: mo1 :: mo2 :: s2 :: d1 :: d2 :: t1 :: h1 :: h2 :: c1 :: mi1 :: mi2 :: c2 :: sec1 :: sec2 :: rest =>
    if s1 = '-' ∧ s2 = '-' ∧ t1 = 'T' ∧ c1 = ':' ∧ c2 = ':' then do
      let y ← num4 y1 y2 y3 y4
      let mo ← num2 mo1 mo2
      let d ← num2 d1 d2
      let h ← num2 h1 h2
      let mi ← num2 mi1 mi2
      let sec ← num2 sec1 sec2
      if 1 ≤ mo ∧ mo ≤ 12 ∧ 1 ≤ d ∧ d ≤ daysIn mo y ∧ h ≤ 23 ∧ mi ≤ 59 ∧ sec ≤ 59 then
        let p := parseFrac rest
        let off ← parseZone p.2
        some ⟨y, mo, d, h, mi, sec, p.1, off⟩
      else none
    else none
  | _ => none

/-- Go time.Parse with the date-only layout 2006-01-02: four digits of year, a
dash, two digits of month, a dash, two digits of day, nothing after, with the
month and day range checks done at the end of the general parse routine; the
remaining components default to zero and the zone defaults to UTC. -/
def parseDateOnly : List Char → Option GoTime
  | [y1, y2, y3, y4, s1, m1, m2, s2, d1, d2] =>
    if s1 = '-' ∧ s2 = '-' then do
      let y ← num4 y1 y2 y3 y4
      let m ← num2 m1 m2
      let d ← num2 d1 d2
      if 1 ≤ m ∧ m ≤ 12 ∧ 1 ≤ d ∧ d ≤ daysIn m y then
        some ⟨y, m, d, 0, 0, 0, 0, 0⟩
      else none
    else none
  | _ => none

/-- Consuming one expected literal layout character, as the prefix matching of
the general Go time parser. -/
def expectChar (c : Char) : List Char → Option (List Char)
  | x :: xs => if x = c then some xs else none
  | [] => none

/-- The getnum routine of package time with fixed width: exactly two digits. -/
def getnum2 : List Char → Option (Nat × List Char)
  | c1 :: c2 :: rest =>
    match num2 c1 c2 with
    | some n => some (n, rest)
    | none => none
  | _ => none

/-- The four-digit year field of the general parser (stdLongYear): the first
character must be a digit and the four-character slice must be a number. -/
def getnum4 : List Char → Option (Nat × List Char)
  | c1 :: c2 :: c3 :: c4 :: rest =>
    match num4 c1 c2 c3 c4 with
    | some n => some (n, rest)
    | none => none
  | _ => none

/-- The getnum routine of package time without fixed width: one digit, or two
when a second digit follows. -/
def getnum1or2 : List Char → Option (Nat × List Char)
  | [] => none
  | c1 :: rest =>
    match digitVal c1 with
    | none => none
    | some d1 =>
      match rest with
      | c2 :: rest2 =>
        match digitVal c2 with
        | some d2 => some (10 * d1 + d2, rest2)
        | none => some (d1, rest)
      | [] => some (d1, [])

/-- The fractional-second special case of the general parser after the seconds
field: consumed when a period or a comma followed by a digit is present even
though the layout has no fraction chunk. -/
def parseFracGeneral : List Char → Nat × List Char
  | c :: c2 :: cs =>
    if (c = '.' ∨ c = ',') ∧ c2.isDigit then
      let p := takeDigits (c2 :: cs)
      (nanosOfDigits p.1, p.2)
    else (0, c :: c2 :: cs)
  | s => (0, s)

/-- The stdISO8601ColonTZ chunk of the general parser: a single letter Z gives
UTC, otherwise at least six characters with a colon in the fourth position, a
sign, a two-digit hour and a two-digit minute, with no range check on the
offset components. -/
def parseZoneGeneral : List Char → Option (Int × List Char)
  | [] => none
  | c :: rest =>
    if c = 'Z' then some (0, rest)
    else
      match c :: rest with
      | c0 :: h1 :: h2 :: cl :: m1 :: m2 :: rest2 =>
        if cl = ':' then do
          let hh ← num2 h1 h2
          let mm ← num2 m1 m2
          let off : Int := (hh * 60 + mm) * 60
          if c0 = '+' then some (off, rest2)
          else if c0 = '-' then some (-off, rest2)
          else none
        else none
      | _ => none

/-- The general layout-driven Go time parser applied to the RFC 3339 layout,
chunk by chunk: a four-digit year, a literal dash, a fixed two-digit month in
1..12, a dash, a fixed two-digit day (its range checked against the month
after the scan), the literal T, an hour of one or two digits at most 23, a
colon, a fixed two-digit minute at most 59, a colon, a fixed two-digit second
at most 59, the optional fraction, the zone chunk, and no text after. -/
def parseRFC3339General (s : List Char) : Option GoTime := do
  let (y, s1) ← getnum4 s
  let s2 ← expectChar '-' s1
  let (mo, s3) ← getnum2 s2
  if 1 ≤ mo ∧ mo ≤ 12 then
    let s4 ← expectChar '-' s3
    let (d, s5) ← getnum2 s4
    let s6 ← expectChar 'T' s5
    let (h, s7) ← getnum1or2 s6
    if h ≤ 23 then
      let s8 ← expectChar ':' s7
      let (mi, s9) ← getnum2 s8
      if mi ≤ 59 then
        let s10 ← expectChar ':' s9
        let (sec, s11) ← getnum2 s10
        if sec ≤ 59 then
          let p := parseFracGeneral s11
          let (off, s13) ← parseZoneGeneral p.2
          if s13 = [] ∧ 1 ≤ d ∧ d ≤ daysIn mo y then
            some ⟨y, mo, d, h, mi, sec, p.1, off⟩
          else none
        else none
      else none
    else none
  else none

/-- Go time.Parse with the RFC 3339 layout: the strict fast path is tried
first and, when it rejects the input, the general layout-driven parser is
run (the general parser accepts strictly more, for example a single-digit
hour, a comma before the fraction, or an offset hour beyond 23). -/
def parseWithRFC3339Layout (s : List Char) : Option GoTime :=
  match parseRFC3339 s with
  | some t => some t
  | none => parseRFC3339General s

/-- The error of Go time.Parse, which carries the layout and the original
input string (time.ParseError has further diagnostic fields derived from
these). -/
structure TimeParseError where
  layout : String
  value : String
deriving DecidableEq, Repr

/-- Go time.Parse restricted to the two layouts the repository uses: the RFC
3339 layout runs the strict fast path with the general-parser fallback, the
date-only layout runs the general parser directly.  On failure the returned
error carries the layout and the original value. -/
def timeParse (layout value : String) : Except TimeParseError GoTime :=
  let res :=
    if layout = ("2006-01-02T15:04:05Z07:00") then parseWithRFC3339Layout value.data
    else if layout = ("2006-01-02") then parseDateOnly value.data
    else none
  match res with
  | some t => .ok t
  | none => .error ⟨layout, value⟩

/-- The function parse of src/unnamed/part_000 (lines 71-87), in state-passing
form: the first component of the result is the destination timestamp after
the call and the second the returned error.  A nil data pointer returns
immediately; otherwise the layout is chosen by the byte length of the string
(10 selects the date-only layout, anything else RFC 3339), and the
destination is written only on success. -/
def parse (dest : Option GoTime) (data : Option String) : Option GoTime × Option TimeParseError :=
  match data with
  | none => (dest, none)
  | some s =>
    let format := if s.utf8ByteSize = 10 then ("2006-01-02") else ("2006-01-02T15:04:05Z07:00")
    match timeParse format s with
    | .ok t => (some t, none)
    | .error e => (dest, some e)

/-- ASCII digit character, used to render timestamps for the round-trip
statements. -/
def digitChar (n : Nat) : Char := Char.ofNat (48 + n)

/-- Zero-padded two-digit decimal rendering. -/
def pad2 (n : Nat) : List Char := [digitChar (n / 10), digitChar (n % 10)]

/-- Zero-padded four-digit decimal rendering. -/
def pad4 (n : Nat) : List Char :=
  [digitChar (n / 1000), digitChar (n / 100 % 10), digitChar (n / 10 % 10), digitChar (n % 10)]

/-- A date-only timestamp string YYYY-MM-DD. -/
def renderDateOnly (y m d : Nat) : String :=
  ⟨pad4 y ++ '-' :: pad2 m ++ '-' :: pad2 d⟩

/-- An RFC 3339 timestamp string with numeric zone offset and no fraction;
the sign flag true renders a plus. -/
def renderRFC3339 (y mo d h mi sec : Nat) (sign : Bool) (zh zm : Nat) : String :=
  ⟨pad4 y ++ '-' :: pad2 mo ++ '-' :: pad2 d ++ 'T' :: pad2 h ++ ':' :: pad2 mi ++ ':' :: pad2 sec
    ++ (if sign then '+' else '-') :: pad2 zh ++ ':' :: pad2 zm⟩

/-- Modelled from the spec: the pagination cursor pair of section 3 of
spec.md, a next and a previous cursor, each present or absent.  The body of
the Pagination type and of extractPagination is not among the provided source
files (src/order.go only declares the caller ListWithPagination), so both are
modelled from sections 3 and 4.2 of the specification. -/
structure Pagination where
  next : Option String
  previous : Option String
deriving DecidableEq, Repr

/-- Modelled from the spec: the page-identifying query parameter of a cursor
URL (section 4.2), read from the part after the question mark, taking the
first ampersand-separated binding of the parameter page_info. -/
def pageInfoOf (url : String) : Option String :=
  match url.splitOn ("?") with
  | [_, q] =>
    ((q.splitOn ("&")).filterMap (fun kv =>
      match kv.splitOn ("=") with
      | [k, v] => if k = ("page_info") then some v else none
      | _ => none)).head?
  | _ => none

/-- Modelled from the spec: one comma-separated Link header entry applied to
the cursor pair (section 4.2).  The entry is split on the semicolon into the
angle-bracket-wrapped URL and the rel attribute; missing delimiters and a
missing page token are fatal, while an unknown relation value is ignored. -/
def applyLinkEntry (pg : Pagination) (entry : String) : Except String Pagination :=
  match entry.splitOn (";") with
  | [urlPart, relPart] =>
    let url := urlPart.trim
    if url.startsWith ("<") ∧ url.endsWith (">") then
      match pageInfoOf ((url.drop 1).dropRight 1) with
      | none => .error ("page_info is missing")
      | some token =>
        let rel := relPart.trim
        if rel = ("rel=\"next\"") then .ok ({pg with next := some token})
        else if rel = ("rel=\"previous\"") then .ok ({pg with previous := some token})
        else .ok pg
    else .error ("could not extract pagination link header")
  | _ => .error ("could not extract pagination link header")

/-- Modelled from the spec: extractPagination of section 4.2.  The empty
header yields the empty cursor pair with no error; a non-empty header is
split on commas and each entry is folded into the pair. -/
def extractPagination (header : String) : Except String Pagination :=
  if header = ("") then .ok ⟨none, none⟩
  else (header.splitOn (",")).foldlM applyLinkEntry ⟨none, none⟩

/-- The money input record of src/unnamed/part_000 (lines 66-69); the decimal
amount is modelled as an exact rational. -/
structure MoneyInput where
  amount : Option Rat
  currencyCode : String
deriving DecidableEq

/-- The anonymous inner struct of AppPlanRecurringPricing. -/
structure AppRecurringPricingDetails where
  interval : String
  price : MoneyInput
deriving DecidableEq

/-- AppPlanRecurringPricing of src/unnamed/part_000 (lines 50-55). -/
structure AppPlanRecurringPricing where
  appRecurringPricingDetails : AppRecurringPricingDetails
deriving DecidableEq

/-- The anonymous inner struct of AppPlanUsagePricing. -/
structure AppUsagePricingDetails where
  cappedAmount : MoneyInput
  terms : String
deriving DecidableEq

/-- AppPlanUsagePricing of src/unnamed/part_000 (lines 58-63). -/
structure AppPlanUsagePricing where
  appUsagePricingDetails : AppUsagePricingDetails
deriving DecidableEq

/-- RecurringApplicationCharge of src/unnamed/part_000 (lines 32-47).
Pointers are options, decimals are exact rationals, and the updated_at
timestamp is the nullable result of the flexible parse. -/
structure RecurringApplicationCharge where
  confirmationURL : String
  id : Int
  name : String
  returnURL : String
  currencyCode : String
  price : Option Rat
  interval : String
  recurringPricing : Option AppPlanRecurringPricing
  cappedAmount : Option Rat
  terms : String
  usagePricing : Option AppPlanUsagePricing
  status : String
  test : Option Bool
  updatedAt : Option GoTime
deriving DecidableEq

/-- The auxiliary struct of RecurringApplicationCharge.UnmarshalJSON
(src/unnamed/part_000, lines 96-104): six raw timestamp strings captured as
string pointers, shadowing the schema fields of the embedded alias, plus the
alias record produced by the standard schema decode of the remaining fields.
Because aux shadows the updated_at key, the charge field of the alias keeps
the updatedAt the receiver had before decoding. -/
structure RACAux where
  activatedOn : Option String
  billingOn : Option String
  cancelledOn : Option String
  createdAt : Option String
  trialEndsOn : Option String
  updatedAt : Option String
  charge : RecurringApplicationCharge

/-- The tail of RecurringApplicationCharge.UnmarshalJSON (src/unnamed/part_000,
lines 106-113) after the auxiliary decode: the flexible parse is applied to
the captured updated_at string with the receiver field as destination, an
error aborts the unmarshal, and the other five captured strings are
discarded. -/
def RecurringApplicationCharge.unmarshalFinish (aux : RACAux) : Except TimeParseError RecurringApplicationCharge :=
  match parse aux.charge.updatedAt aux.updatedAt with
  | (newUpdated, none) => .ok ({aux.charge with updatedAt := newUpdated})
  | (_, some e) => .error e

/-- A sample standard-decode result used to instantiate witnesses. -/
def sampleCharge : RecurringApplicationCharge :=
  ⟨"", 0, "", "", "", none, "", none, none, "", none, "", none, none⟩

theorem decode_mkPropertyPair (n : String) (v : Option Json) :
    decodeNoteAttribute (mkPropertyPair n v) = .ok ⟨n, v.bind goDecodeAny⟩ := by
  cases v with
  | none => rfl
  | some w => cases w <;> rfl

/-- C1: a JSON array of name-and-value pair objects as the properties field
decodes, without error, to exactly that sequence of pairs, in order, each pair
carrying its name and the standard generic decoding of its value (a JSON null
value denotes the nil interface). -/
theorem lineItem_properties_array_roundtrip (pairs : List (String × Option Json)) :
    LineItem.unmarshalProperties (some (Json.arr (pairs.map fun p => mkPropertyPair p.1 p.2)))
      = .ok (pairs.map fun p => NoteAttribute.mk p.1 (p.2.bind goDecodeAny)) := by
  have main : ∀ l : List (String × Option Json),
      decodeNoteAttributes (l.map fun p => mkPropertyPair p.1 p.2)
        = .ok (l.map fun p => NoteAttribute.mk p.1 (p.2.bind goDecodeAny)) := by
    intro l
    induction l with
    | nil => rfl
    | cons p ps ih =>
      simp only [List.map_cons, decodeNoteAttributes, decode_mkPropertyPair, ih]
  exact main pairs

/-- C2: a properties value whose first byte is not a left bracket and which
decodes as a single name-and-value object yields the one-element sequence
holding that object, except that the effectively-empty object (empty name,
absent value) yields the empty sequence. -/
theorem lineItem_properties_single_object (v : Json) (p : NoteAttribute)
    (hv : firstByteIsArray v = false) (hp : decodeNoteAttribute v = .ok p) :
    LineItem.unmarshalProperties (some v)
      = .ok (if p.name = ("") ∧ p.value.isNone then [] else [p]) := by
  simp only [LineItem.unmarshalProperties, hv, hp, Bool.false_eq_true, if_false]
  split <;> rfl

theorem lineItem_properties_single_object_witness :
    LineItem.unmarshalProperties (some (Json.obj [("name", Json.str ("color")), ("value", Json.str ("blue"))]))
      = .ok [⟨"color", some (Json.str ("blue"))⟩] := by
  have h := lineItem_properties_single_object
    (Json.obj [("name", Json.str ("color")), ("value", Json.str ("blue"))])
    ⟨"color", some (Json.str ("blue"))⟩ rfl rfl
  simpa using h

/-- C3: an absent properties field (the captured raw message is empty) gives
no error and the empty properties sequence. -/
theorem lineItem_properties_absent_empty :
    LineItem.unmarshalProperties none = .ok [] := rfl

/-- C4: a properties value that is malformed for its branch, an array whose
elements do not decode as pairs or a non-array that does not decode as a
single pair object, surfaces the decode error to the caller. -/
theorem lineItem_properties_error_surfaced (v : Json) (e : String)
    (h : (firstByteIsArray v = true ∧ decodeNoteAttributeList v = .error e)
       ∨ (firstByteIsArray v = false ∧ decodeNoteAttribute v = .error e)) :
    LineItem.unmarshalProperties (some v) = .error e := by
  rcases h with ⟨h1, h2⟩ | ⟨h1, h2⟩ <;> simp [LineItem.unmarshalProperties, h1, h2]

theorem lineItem_properties_error_surfaced_witness :
    LineItem.unmarshalProperties (some (Json.arr [Json.num 5]))
        = .error ("json: cannot unmarshal value into Go value of type goshopify.NoteAttribute")
      ∧ LineItem.unmarshalProperties (some (Json.str ("oops")))
        = .error ("json: cannot unmarshal value into Go value of type goshopify.NoteAttribute") := by
  constructor
  · exact lineItem_properties_error_surfaced _ _ (Or.inl ⟨rfl, rfl⟩)
  · exact lineItem_properties_error_surfaced _ _ (Or.inr ⟨rfl, rfl⟩)

theorem digitVal_digitChar (n : Nat) (h : n ≤ 9) :
    digitVal (digitChar n) = some n := by
  interval_cases n <;> decide

theorem num2_pad2 (n : Nat) (h : n ≤ 99) :
    num2 (digitChar (n / 10)) (digitChar (n % 10)) = some n := by
  rw [num2, digitVal_digitChar _ (by omega), digitVal_digitChar _ (by omega)]
  simp
  omega

theorem num4_pad4 (n : Nat) (h : n ≤ 9999) :
    num4 (digitChar (n / 1000)) (digitChar (n / 100 % 10)) (digitChar (n / 10 % 10)) (digitChar (n % 10)) = some n := by
  rw [num4, digitVal_digitChar _ (by omega), digitVal_digitChar _ (by omega),
    digitVal_digitChar _ (by omega), digitVal_digitChar _ (by omega)]
  simp
  omega

theorem daysIn_le (m y : Nat) : daysIn m y ≤ 31 := by
  unfold daysIn
  split_ifs <;> omega

theorem utf8Size_digitChar (n : Nat) (h : n ≤ 9) : (digitChar n).utf8Size = 1 := by
  interval_cases n <;> decide

theorem renderDateOnly_bytes (y m d : Nat) (hy : y ≤ 9999) (hm : m ≤ 99) (hd : d ≤ 99) :
    (renderDateOnly y m d).utf8ByteSize = 10 := by
  have h1 := utf8Size_digitChar (y / 1000) (by omega)
  have h2 := utf8Size_digitChar (y / 100 % 10) (by omega)
  have h3 := utf8Size_digitChar (y / 10 % 10) (by omega)
  have h4 := utf8Size_digitChar (y % 10) (by omega)
  have h5 := utf8Size_digitChar (m / 10) (by omega)
  have h6 := utf8Size_digitChar (m % 10) (by omega)
  have h7 := utf8Size_digitChar (d / 10) (by omega)
  have h8 := utf8Size_digitChar (d % 10) (by omega)
  have hsep : ('-').utf8Size = 1 := by decide
  simp [renderDateOnly, String.utf8ByteSize, String.utf8ByteSize.go, pad4, pad2,
    h1, h2, h3, h4, h5, h6, h7, h8, hsep]

theorem renderRFC3339_bytes (y mo d h mi sec : Nat) (sign : Bool) (zh zm : Nat)
    (hy : y ≤ 9999) (hmo : mo ≤ 99) (hd : d ≤ 99) (hh : h ≤ 99) (hmi : mi ≤ 99)
    (hsec : sec ≤ 99) (hzh : zh ≤ 99) (hzm : zm ≤ 99) :
    (renderRFC3339 y mo d h mi sec sign zh zm).utf8ByteSize = 25 := by
  have g1 := utf8Size_digitChar (y / 1000) (by omega)
  have g2 := utf8Size_digitChar (y / 100 % 10) (by omega)
  have g3 := utf8Size_digitChar (y / 10 % 10) (by omega)
  have g4 := utf8Size_digitChar (y % 10) (by omega)
  have g5 := utf8Size_digitChar (mo / 10) (by omega)
  have g6 := utf8Size_digitChar (mo % 10) (by omega)
  have g7 := utf8Size_digitChar (d / 10) (by omega)
  have g8 := utf8Size_digitChar (d % 10) (by omega)
  have g9 := utf8Size_digitChar (h / 10) (by omega)
  have g10 := utf8Size_digitChar (h % 10) (by omega)
  have g11 := utf8Size_digitChar (mi / 10) (by omega)
  have g12 := utf8Size_digitChar (mi % 10) (by omega)
  have g13 := utf8Size_digitChar (sec / 10) (by omega)
  have g14 := utf8Size_digitChar (sec % 10) (by omega)
  have g15 := utf8Size_digitChar (zh / 10) (by omega)
  have g16 := utf8Size_digitChar (zh % 10) (by omega)
  have g17 := utf8Size_digitChar (zm / 10) (by omega)
  have g18 := utf8Size_digitChar (zm % 10) (by omega)
  have k1 : ('-').utf8Size = 1 := by decide
  have k2 : ('T').utf8Size = 1 := by decide
  have k3 : (':').utf8Size = 1 := by decide
  have k4 : ('+').utf8Size = 1 := by decide
  cases sign <;>
    simp [renderRFC3339, String.utf8ByteSize, String.utf8ByteSize.go, pad4, pad2,
      g1, g2, g3, g4, g5, g6, g7, g8, g9, g10, g11, g12, g13, g14, g15, g16, g17, g18,
      k1, k2, k3, k4]

/-- C6: the flexible timestamp parse applied to a nil string pointer returns
no error and leaves the destination untouched, so an unset destination stays
null. -/
theorem parse_nil_data (dest : Option GoTime) : parse dest none = (dest, none) := rfl

/-- C7: the format is selected by byte length alone; a ten-byte rendered date
parses with the date-only layout to midnight of that date, and a rendered RFC
3339 string of any valid date, time and numeric offset (whose length is not
ten) parses with the RFC 3339 layout, preserving the date and the offset. -/
theorem parse_length_format_dispatch (dest : Option GoTime)
    (y mo d h mi sec zh zm : Nat) (sign : Bool)
    (hy : y ≤ 9999) (hmo1 : 1 ≤ mo) (hmo2 : mo ≤ 12)
    (hd1 : 1 ≤ d) (hd2 : d ≤ daysIn mo y)
    (hh : h ≤ 23) (hmi : mi ≤ 59) (hsec : sec ≤ 59)
    (hzh : zh ≤ 23) (hzm : zm ≤ 59) :
    parse dest (some (renderDateOnly y mo d))
        = (some ⟨y, mo, d, 0, 0, 0, 0, 0⟩, none)
      ∧ parse dest (some (renderRFC3339 y mo d h mi sec sign zh zm))
        = (some ⟨y, mo, d, h, mi, sec, 0,
            if sign then ((zh * 60 + zm) * 60 : Int) else -((zh * 60 + zm) * 60)⟩, none) := by
  have hd99 : d ≤ 99 := le_trans hd2 (le_trans (daysIn_le mo y) (by omega))
  constructor
  · have hb := renderDateOnly_bytes y mo d hy (by omega) (by omega)
    have hparse : parseDateOnly (renderDateOnly y mo d).data
        = some ⟨y, mo, d, 0, 0, 0, 0, 0⟩ := by
      show parseDateOnly (pad4 y ++ '-' :: pad2 mo ++ '-' :: pad2 d) = _
      simp only [pad4, pad2, List.cons_append, List.nil_append, parseDateOnly]
      rw [if_pos (⟨trivial, trivial⟩ : True ∧ True)]
      rw [num4_pad4 y hy, num2_pad2 mo (by omega), num2_pad2 d (by omega)]
      simp only [Option.bind_eq_bind, Option.some_bind]
      rw [if_pos ⟨hmo1, hmo2, hd1, hd2⟩]
    simp [parse, timeParse, hb, hparse]
  · have hb := renderRFC3339_bytes y mo d h mi sec sign zh zm hy (by omega) (by omega)
      (by omega) (by omega) (by omega) (by omega) (by omega)
    have hparse : parseRFC3339 (renderRFC3339 y mo d h mi sec sign zh zm).data
        = some ⟨y, mo, d, h, mi, sec, 0,
            if sign then ((zh * 60 + zm) * 60 : Int) else -((zh * 60 + zm) * 60)⟩ := by
      show parseRFC3339 (pad4 y ++ '-' :: pad2 mo ++ '-' :: pad2 d ++ 'T' :: pad2 h
        ++ ':' :: pad2 mi ++ ':' :: pad2 sec
        ++ (if sign then '+' else '-') :: pad2 zh ++ ':' :: pad2 zm) = _
      cases sign <;>
      · simp only [Bool.false_eq_true, if_false, if_true, pad4, pad2,
          List.cons_append, List.nil_append, parseRFC3339]
        rw [if_pos (⟨trivial, trivial, trivial, trivial, trivial⟩
          : True ∧ True ∧ True ∧ True ∧ True)]
        rw [num4_pad4 y hy, num2_pad2 mo (by omega), num2_pad2 d (by omega),
          num2_pad2 h (by omega), num2_pad2 mi (by omega), num2_pad2 sec (by omega)]
        simp only [Option.bind_eq_bind, Option.some_bind]
        rw [if_pos ⟨hmo1, hmo2, hd1, hd2, hh, hmi, hsec⟩]
        simp [parseFrac, parseZone, num2_pad2 zh (by omega), num2_pad2 zm (by omega), hzh, hzm]
    simp [parse, timeParse, parseWithRFC3339Layout, hb, hparse]

theorem parse_length_format_dispatch_witness :
    parse none (some (renderDateOnly 2013 6 27))
        = (some ⟨2013, 6, 27, 0, 0, 0, 0, 0⟩, none)
      ∧ parse none (some (renderRFC3339 2013 6 27 8 48 27 false 4 0))
        = (some ⟨2013, 6, 27, 8, 48, 27, 0, -14400⟩, none) := by
  have h := parse_length_format_dispatch none 2013 6 27 8 48 27 4 0 false
    (by decide) (by decide) (by decide) (by decide) (by decide)
    (by decide) (by decide) (by decide) (by decide) (by decide)
  simpa using h

/-- C8: a non-nil string that the selected layout does not accept makes the
flexible parse return an error that carries the original input string, and
the destination is not written. -/
theorem parse_failure_carries_input (dest : Option GoTime) (s : String)
    (h : (if s.utf8ByteSize = 10 then parseDateOnly s.data else parseWithRFC3339Layout s.data) = none) :
    parse dest (some s)
      = (dest, some ⟨if s.utf8ByteSize = 10 then ("2006-01-02") else ("2006-01-02T15:04:05Z07:00"), s⟩) := by
  by_cases hb : s.utf8ByteSize = 10
  · rw [if_pos hb] at h ⊢
    simp [parse, timeParse, hb, h]
  · rw [if_neg hb] at h ⊢
    simp [parse, timeParse, hb, h]

theorem parse_failure_carries_input_witness :
    parse none (some ("not-a-date")) = (none, some ⟨"2006-01-02", "not-a-date"⟩) := by
  have h := parse_failure_carries_input none ("not-a-date") (by decide)
  have e : (if ("not-a-date" : String).utf8ByteSize = 10 then ("2006-01-02" : String)
      else ("2006-01-02T15:04:05Z07:00")) = ("2006-01-02") := by decide
  rw [e] at h
  exact h

/-- C9: the empty Link header yields the cursor pair with both cursors absent
and no error, so missing pagination is a valid terminal state rather than a
failure. -/
theorem extractPagination_empty_header :
    extractPagination ("") = .ok ⟨none, none⟩ := rfl

/-- C10: the custom unmarshaller of RecurringApplicationCharge applies the
flexible timestamp parse only to the captured updated_at string: the five
other captured timestamp strings never influence the result or raise an
error, and every field of a successful result other than updatedAt is exactly
the field produced by the standard schema decode. -/
theorem rac_unmarshal_frame (a b : RACAux) (r : RecurringApplicationCharge)
    (hch : a.charge = b.charge) (hup : a.updatedAt = b.updatedAt)
    (hr : RecurringApplicationCharge.unmarshalFinish a = .ok r) :
    RecurringApplicationCharge.unmarshalFinish b = .ok r
      ∧ r = {a.charge with updatedAt := (parse a.charge.updatedAt a.updatedAt).1} := by
  unfold RecurringApplicationCharge.unmarshalFinish at hr ⊢
  rw [← hch, ← hup]
  rcases hp : parse a.charge.updatedAt a.updatedAt with ⟨nu, err⟩
  rw [hp] at hr
  cases err with
  | none => exact ⟨hr, (Except.ok.inj hr).symm⟩
  | some e => exact Except.noConfusion hr

theorem rac_unmarshal_frame_witness :
    RecurringApplicationCharge.unmarshalFinish
        ⟨none, none, none, none, none, some ("2013-06-27"), sampleCharge⟩
      = .ok ({sampleCharge with updatedAt := some ⟨2013, 6, 27, 0, 0, 0, 0, 0⟩})
      ∧ ({sampleCharge with updatedAt := some ⟨2013, 6, 27, 0, 0, 0, 0, 0⟩} : RecurringApplicationCharge)
        = {sampleCharge with updatedAt := (parse sampleCharge.updatedAt (some ("2013-06-27"))).1} :=
  rac_unmarshal_frame
    ⟨some ("1999-12-31"), some ("not a date"), some ("x"), some ("y"), some ("z"),
      some ("2013-06-27"), sampleCharge⟩
    ⟨none, none, none, none, none, some ("2013-06-27"), sampleCharge⟩
    ({sampleCharge with updatedAt := some ⟨2013, 6, 27, 0, 0, 0, 0, 0⟩})
    rfl rfl rfl
